import Mathlib

/-!
Verification of the slotted leaf-page engine of mini-base (`src/page.rs`).

The page is a memory-mapped byte buffer.  We model the mapped region as a
total function `mem : Nat → Nat`; `read_u8` masks with `% 256` because the
underlying storage is `u8`-typed, and `write_u8` stores the value mod 256.
All offset arithmetic is on `Nat` exactly as the Rust code computes it on
`usize`.  A Rust panic (an arithmetic underflow in debug mode, or an
`unwrap()` of `None`) is modelled by the `PRes.abort` constructor; code that
cannot panic keeps its plain result type.  `usize` subtraction that the
claims never exercise on an underflowing input (`get_free_space`,
`get_sorted_table`) is modelled with truncating `Nat` subtraction.

Only the `LeafPage` instantiation of the `Pager`/`DataPager` traits is
modelled (the claims are all about leaf pages); the `DataPager` trait
methods are specialised to the leaf sorted-table offset 25.
-/

/-- Outcome of an operation that can panic: `abort` models a Rust panic. -/
inductive PRes (α : Type) : Type where
  | abort : PRes α
  | ok : α → PRes α
deriving Repr

/-- A leaf page: the length of the mapped region and its bytes.
`LeafPage::new`/`from` in the source hold an `Mmap` of a fixed length. -/
structure LeafPage where
  len : Nat
  mem : Nat → Nat

/- ByteAccessor (trait `Pager`): typed reads/writes at byte offsets. -/

def read_u8 (p : LeafPage) (offset : Nat) : Nat :=
  p.mem offset % 256

def write_u8 (p : LeafPage) (offset value : Nat) : LeafPage :=
  { p with mem := Function.update p.mem offset (value % 256) }

def read_u32 (p : LeafPage) (offset : Nat) : Nat :=
  read_u8 p offset + 256 * read_u8 p (offset + 1) +
    65536 * read_u8 p (offset + 2) + 16777216 * read_u8 p (offset + 3)

def write_bytes (p : LeafPage) (offset : Nat) : List Nat → LeafPage
  | [] => p
  | b :: bs => write_bytes (write_u8 p offset b) (offset + 1) bs

/-- `write_u32` stores the four little-endian bytes of `value` (as `u32`,
i.e. of `value % 2^32`). -/
def write_u32 (p : LeafPage) (offset value : Nat) : LeafPage :=
  write_bytes p offset
    [value % 256, value / 256 % 256, value / 65536 % 256, value / 16777216 % 256]

def read_bytes (p : LeafPage) (offset length : Nat) : List Nat :=
  (List.range length).map (fun i => read_u8 p (offset + i))

/- DataPager trait: header-field layout and accessors. -/

namespace DataPager

def HEADER : Nat := 0
def CAPACITY : Nat := 1
def PARENT : Nat := 5
def DATA_HEAD_OFFSET : Nat := 9
def DATA_TAIL_OFFSET : Nat := 13

end DataPager

namespace LeafPage

def PREVIOUS_PAGE : Nat := 17
def NEXT_PAGE : Nat := 21
def SORTED_TABLE : Nat := 25
/-- Leaf header constant `0b1000_0000`. -/
def HEADER : Nat := 128

end LeafPage

def get_header (p : LeafPage) : Nat := read_u8 p DataPager.HEADER

def update_header (p : LeafPage) (value : Nat) : LeafPage :=
  write_u8 p DataPager.HEADER value

def get_capacity (p : LeafPage) : Nat := read_u32 p DataPager.CAPACITY

def update_capacity (p : LeafPage) (value : Nat) : LeafPage :=
  write_u32 p DataPager.CAPACITY value

def get_data_head_offset (p : LeafPage) : Nat :=
  read_u32 p DataPager.DATA_HEAD_OFFSET

def update_data_head_offset (p : LeafPage) (value : Nat) : LeafPage :=
  write_u32 p DataPager.DATA_HEAD_OFFSET value

def get_data_tail_offset (p : LeafPage) : Nat :=
  read_u32 p DataPager.DATA_TAIL_OFFSET

def update_data_tail_offset (p : LeafPage) (value : Nat) : LeafPage :=
  write_u32 p DataPager.DATA_TAIL_OFFSET value

/-- `(data_tail_offset - data_head_offset) as u32` (usize subtraction;
truncating model, no page exercised by a claim has `head > tail`). -/
def get_free_space (p : LeafPage) : Nat :=
  get_data_tail_offset p - get_data_head_offset p

/-- `DataPager::get_sorted_table_offset` instantiated at `LeafPage`. -/
def get_sorted_table_offset : Nat := LeafPage.SORTED_TABLE

/-- The slot directory: `(data_head_offset - table_start)/4` four-byte
heap-offsets read from `SORTED_TABLE` upward. -/
def get_sorted_table (p : LeafPage) : List Nat :=
  let sorted_table_length := (get_data_head_offset p - get_sorted_table_offset) / 4
  (List.range sorted_table_length).map
    (fun i => read_u32 p (get_sorted_table_offset + 4 * i))

/-- Byte-slice comparison: Rust `<[u8]>::cmp`, unsigned lexicographic with
the shorter prefix sorting first. -/
def cmpBytes : List Nat → List Nat → Ordering
  | [], [] => Ordering.eq
  | [], _ :: _ => Ordering.lt
  | _ :: _, [] => Ordering.gt
  | a :: as_, b :: bs =>
    if a < b then Ordering.lt
    else if b < a then Ordering.gt
    else cmpBytes as_ bs

/-- The loop of Rust `<[T]>::binary_search_by`:
`size = right - left; mid = left + size/2`, comparing the stored key at the
probed heap-offset against the search key.  The loop runs at most
`right - left` iterations (the window shrinks strictly each time), so a fuel
of the initial window size makes the recursion structural without changing
the computed result. -/
def binary_search_loop (p : LeafPage) (key sorted_table : List Nat) :
    Nat → Nat → Nat → Bool × Nat
  | 0, left, _ => (false, left)
  | fuel + 1, left, right =>
    if left < right then
      let size := right - left
      let mid := left + size / 2
      let key_offset := sorted_table.getD mid 0
      let key_size := read_u32 p key_offset
      let key_data := read_bytes p (key_offset + 4) key_size
      match cmpBytes key_data key with
      | Ordering.lt => binary_search_loop p key sorted_table fuel (mid + 1) right
      | Ordering.gt => binary_search_loop p key sorted_table fuel left mid
      | Ordering.eq => (true, mid)
    else (false, left)

/-- `DataPager::binary_search`: `(found, index)`; on an empty directory
`(false, 0)`, otherwise the `binary_search_by` result (`Ok p ↦ (true, p)`,
`Err e ↦ (false, e)`). -/
def binary_search (p : LeafPage) (key : List Nat) (sorted_table : List Nat) :
    Bool × Nat :=
  if sorted_table.isEmpty then (false, 0)
  else binary_search_loop p key sorted_table sorted_table.length 0 sorted_table.length

/-- `common_init`: capacity := length, head := table start, tail := length,
header := the page-kind constant. -/
def common_init (p : LeafPage) (length : Nat) (header : Nat) : LeafPage :=
  let p := update_capacity p length
  let p := update_data_head_offset p get_sorted_table_offset
  let p := update_data_tail_offset p length
  update_header p header

/-- The structural-corruption errors of `valid_common_data` (the source
carries them as `MiniBaseError(&str)` messages). -/
inductive MiniBaseError : Type where
  | headerInvalid : MiniBaseError
  | capacityInvalid : MiniBaseError
  | dataHeadOffsetInvalid : MiniBaseError
  | dataTailOffsetInvalid : MiniBaseError
deriving DecidableEq, Repr

/-- `valid_common_data` specialised to the leaf table-start offset. -/
def valid_common_data (p : LeafPage) (length : Nat) (expect_header : Nat) :
    Option MiniBaseError :=
  if get_header p ≠ expect_header then some MiniBaseError.headerInvalid
  else if get_capacity p ≠ length then some MiniBaseError.capacityInvalid
  else if get_data_head_offset p < get_sorted_table_offset then
    some MiniBaseError.dataHeadOffsetInvalid
  else if get_data_tail_offset p < get_data_head_offset p ∨
      get_data_tail_offset p > length then
    some MiniBaseError.dataTailOffsetInvalid
  else none

/-- `LeafPage::new`: map a fresh region of the given length and run
`common_init`.  The backing region of a fresh page is zero-filled (the file
is extended with `set_len`, which zero-fills). -/
def LeafPage.new (length : Nat) : LeafPage :=
  common_init ⟨length, fun _ => 0⟩ length LeafPage.HEADER

/-- `LeafPage::from`: map an existing region and validate it; any violation
returns the structural-corruption error and no page. -/
def LeafPage.from_ (length : Nat) (mem : Nat → Nat) : Except MiniBaseError LeafPage :=
  let page : LeafPage := ⟨length, mem⟩
  match valid_common_data page length LeafPage.HEADER with
  | none => Except.ok page
  | some error => Except.error error

def get_value_required_space (value : List Nat) : Nat := 4 + value.length

def get_key_required_space (key : List Nat) : Nat := 4 + key.length + 1 + 4

def get_value_offset_position (key_offset key_size : Nat) : Nat :=
  key_offset + 4 + key_size + 1

def get_value_deleted_position (key_offset key_size : Nat) : Nat :=
  key_offset + 4 + key_size

/-- `allocate_space_head`: bump the head by `size`; `none` when the new head
would pass the tail.  (`data_head_offset + size` cannot underflow.) -/
def allocate_space_head (p : LeafPage) (size : Nat) : Option (Nat × LeafPage) :=
  let data_head_offset := get_data_head_offset p
  let data_tail_offset := get_data_tail_offset p
  let new_data_head_offset := data_head_offset + size
  if new_data_head_offset > data_tail_offset then none
  else some (data_head_offset, update_data_head_offset p new_data_head_offset)

/-- `allocate_space_tail`: computes `data_tail_offset - size` FIRST; when
`size > data_tail_offset` that usize subtraction underflows, i.e. panics
(`PRes.abort`), before the `new_tail < head` guard is ever reached. -/
def allocate_space_tail (p : LeafPage) (size : Nat) : PRes (Option (Nat × LeafPage)) :=
  let data_head_offset := get_data_head_offset p
  let data_tail_offset := get_data_tail_offset p
  if data_tail_offset < size then PRes.abort
  else
    let new_data_tail_offset := data_tail_offset - size
    if new_data_tail_offset < data_head_offset then PRes.ok none
    else PRes.ok (some (new_data_tail_offset,
      update_data_tail_offset p new_data_tail_offset))

/-- Key record at `key_offset`: `(deleted, value_bytes)`. -/
def get_value_by_key_offset (p : LeafPage) (key_offset : Nat) : Bool × List Nat :=
  let key_size := read_u32 p key_offset
  let deleted := read_u8 p (get_value_deleted_position key_offset key_size) == 1
  let value_offset := read_u32 p (get_value_offset_position key_offset key_size)
  let value_size := read_u32 p value_offset
  (deleted, read_bytes p (value_offset + 4) value_size)

/-- `update_value_delete`: write the tombstone flag of the record at
`key_offset`. -/
def update_value_delete (p : LeafPage) (key_offset : Nat) (deleted : Bool) : LeafPage :=
  let d := if deleted then 1 else 0
  let key_size := read_u32 p key_offset
  write_u8 p (get_value_deleted_position key_offset key_size) d

/-- `LeafPage::override_value`.  The free-space guard compares against
`(value.len() + 4) as u32` (truncated to `u32`, hence the `% 2^32`); the
source `unwrap()`s the tail allocation, so an allocation failure there is a
panic (`abort`). -/
def override_value (p : LeafPage) (sorted_table : List Nat) (index : Nat)
    (key value : List Nat) : PRes (Bool × LeafPage) :=
  let key_offset := sorted_table.getD index 0
  let r := get_value_by_key_offset p key_offset
  let deleted := r.1
  let old_value := r.2
  if old_value = value then
    if deleted then PRes.ok (true, update_value_delete p key_offset false)
    else PRes.ok (true, p)
  else if get_free_space p < (value.length + 4) % 4294967296 then
    PRes.ok (false, p)
  else
    let p := if deleted then update_value_delete p key_offset false else p
    match allocate_space_tail p (value.length + 4) with
    | PRes.abort => PRes.abort
    | PRes.ok none => PRes.abort
    | PRes.ok (some (new_value_offset, p)) =>
      let p := write_u32 p new_value_offset value.length
      let p := write_bytes p (new_value_offset + 4) value
      let p := write_u32 p (get_value_offset_position key_offset key.length)
        new_value_offset
      PRes.ok (true, p)

/-- `LeafPage::insert_value`.  Note the required-space formula
`(4 + key.len() + 4 + 4 + value.len() + 4) as u32` (the tombstone byte is
missing, and the usize sum is truncated to `u32` by the cast, hence the
`% 2^32`), and the directory-update condition
`index == sorted_table.len() - 1`. -/
def insert_value (p : LeafPage) (sorted_table : List Nat) (index : Nat)
    (key value : List Nat) : PRes (Bool × LeafPage) :=
  let required_space := (4 + key.length + 4 + 4 + value.length + 4) % 4294967296
  let free_space := get_free_space p
  if free_space < required_space then PRes.ok (false, p)
  else
    match allocate_space_tail p (get_value_required_space value) with
    | PRes.abort => PRes.abort
    | PRes.ok none => PRes.abort
    | PRes.ok (some (new_value_offset, p)) =>
      let p := write_u32 p new_value_offset value.length
      let p := write_bytes p (new_value_offset + 4) value
      match allocate_space_tail p (get_key_required_space key) with
      | PRes.abort => PRes.abort
      | PRes.ok none => PRes.abort
      | PRes.ok (some (new_key_offset, p)) =>
        let p := write_u32 p new_key_offset key.length
        let p := write_bytes p (new_key_offset + 4) key
        let p := write_u32 p (get_value_offset_position new_key_offset key.length)
          new_value_offset
        match allocate_space_head p 4 with
        | none => PRes.abort
        | some (new_key_index_offset, p) =>
          if sorted_table.isEmpty ∨ index = sorted_table.length - 1 then
            PRes.ok (true, write_u32 p new_key_index_offset new_key_offset)
          else
            let move_offset := LeafPage.SORTED_TABLE + 4 * index
            let bytes_to_move :=
              read_bytes p move_offset ((sorted_table.length - index) * 4)
            let p := write_bytes p (move_offset + 4) bytes_to_move
            let p := write_u32 p move_offset new_key_offset
            PRes.ok (true, p)

/-- `LeafPage::insert_key_value` (the public insert-or-update). -/
def insert_key_value (p : LeafPage) (key value : List Nat) : PRes (Bool × LeafPage) :=
  let sorted_table := get_sorted_table p
  let r := binary_search p key sorted_table
  if r.1 then override_value p sorted_table r.2 key value
  else insert_value p sorted_table r.2 key value

/-- `LeafPage::get_value`. -/
def get_value (p : LeafPage) (key : List Nat) : Option (List Nat) :=
  let sorted_table := get_sorted_table p
  let r := binary_search p key sorted_table
  if !r.1 then none
  else
    match get_value_by_key_offset p (sorted_table.getD r.2 0) with
    | (false, value) => some value
    | (true, _) => none

/-- `LeafPage::delete_value`: logical delete; `(success, page)`. -/
def delete_value (p : LeafPage) (key : List Nat) : Bool × LeafPage :=
  let sorted_table := get_sorted_table p
  let r := binary_search p key sorted_table
  if !r.1 then (false, p)
  else
    let key_offset := sorted_table.getD r.2 0
    (true, update_value_delete p key_offset true)

/- Model glue: projections out of a possibly-aborting result, so that
claim statements can name the returned flag/page without binders. -/

/-- `true` iff the operation completed and returned `true`. -/
def resultOk : PRes (Bool × LeafPage) → Bool
  | PRes.ok (true, _) => true
  | _ => false

/-- `true` iff the operation completed and returned `false`. -/
def resultRejected : PRes (Bool × LeafPage) → Bool
  | PRes.ok (false, _) => true
  | _ => false

/-- The page after the operation (the given page when the operation
aborted, matching "the process died, the mapping is as it was"). -/
def resultPage (dflt : LeafPage) : PRes (Bool × LeafPage) → LeafPage
  | PRes.ok (_, q) => q
  | PRes.abort => dflt

/-- Keys referenced by the slot directory, in directory order. -/
def table_keys (p : LeafPage) : List (List Nat) :=
  (get_sorted_table p).map (fun e => read_bytes p (e + 4) (read_u32 p e))

/-- Strict byte-lexicographic ascent of a key list: every adjacent pair
compares `lt`. -/
def ascending_b : List (List Nat) → Bool
  | [] => true
  | [_] => true
  | a :: b :: rest => (cmpBytes a b == Ordering.lt) && ascending_b (b :: rest)

def strictly_ascending (l : List (List Nat)) : Prop := ascending_b l = true

instance : DecidablePred strictly_ascending := fun l =>
  inferInstanceAs (Decidable (ascending_b l = true))

/-- The structural invariant of claim C8:
`SORTED_TABLE ≤ data_head_offset ≤ data_tail_offset ≤ capacity`. -/
def PageInv (p : LeafPage) : Prop :=
  LeafPage.SORTED_TABLE ≤ get_data_head_offset p ∧
  get_data_head_offset p ≤ get_data_tail_offset p ∧
  get_data_tail_offset p ≤ get_capacity p

instance : DecidablePred PageInv := fun _ =>
  inferInstanceAs (Decidable (_ ∧ _ ∧ _))

/-- Slot-directory entries lie past the fixed header fields (bytes 0–16).
Every page reachable through the public interface satisfies this: records
are always allocated from the tail, above `data_head_offset ≥ 25`. -/
def entries_in_data_area (p : LeafPage) : Prop :=
  ∀ e ∈ get_sorted_table p, LeafPage.PREVIOUS_PAGE ≤ e

instance : DecidablePred entries_in_data_area := fun p =>
  inferInstanceAs (Decidable (∀ e ∈ get_sorted_table p, LeafPage.PREVIOUS_PAGE ≤ e))

/-- The byte extent of the key record at heap-offset `e`:
`[key_len:u32][key_bytes][deleted:u8][value_offset:u32]`. -/
def record_span (p : LeafPage) (e : Nat) : Nat := 4 + read_u32 p e + 1 + 4

/-- Structural well-formedness of a leaf page: the directory references key
records at or above `data_head_offset`, the key records are pairwise
disjoint, and every referenced value record is disjoint from every key
record.  Every page reachable through `new` and the public operations
satisfies this. -/
def PageWF (p : LeafPage) : Prop :=
  25 ≤ get_data_head_offset p ∧
  (∀ e ∈ get_sorted_table p, get_data_head_offset p ≤ e) ∧
  (get_sorted_table p).Pairwise (fun a b =>
    a + record_span p a ≤ b ∨ b + record_span p b ≤ a) ∧
  (∀ e ∈ get_sorted_table p, ∀ e2 ∈ get_sorted_table p,
    read_u32 p (get_value_offset_position e (read_u32 p e)) + 4 +
      read_u32 p (read_u32 p (get_value_offset_position e (read_u32 p e))) ≤ e2 ∨
    e2 + record_span p e2 ≤
      read_u32 p (get_value_offset_position e (read_u32 p e)))

instance : DecidablePred PageWF := fun _ =>
  inferInstanceAs (Decidable (_ ∧ _ ∧ _ ∧ _))

/-! ## Byte-level frame lemmas -/

theorem read_u8_lt (p : LeafPage) (o : Nat) : read_u8 p o < 256 :=
  Nat.mod_lt _ (by omega)

theorem read_u32_lt (p : LeafPage) (o : Nat) : read_u32 p o < 4294967296 := by
  have h0 := read_u8_lt p o
  have h1 := read_u8_lt p (o + 1)
  have h2 := read_u8_lt p (o + 2)
  have h3 := read_u8_lt p (o + 3)
  unfold read_u32
  omega

theorem read_u8_write_u8_same (p : LeafPage) (o v : Nat) :
    read_u8 (write_u8 p o v) o = v % 256 := by
  simp only [read_u8, write_u8, Function.update_same]
  omega

theorem read_u8_write_u8_ne (p : LeafPage) (o o' v : Nat) (h : o ≠ o') :
    read_u8 (write_u8 p o' v) o = read_u8 p o := by
  simp [read_u8, write_u8, Function.update_noteq h]

theorem read_u8_write_bytes_out (p : LeafPage) (l : List Nat) :
    ∀ start o, (o < start ∨ start + l.length ≤ o) →
      read_u8 (write_bytes p start l) o = read_u8 p o := by
  induction l generalizing p with
  | nil => intro start o _; rfl
  | cons b bs ih =>
    intro start o h
    simp only [write_bytes]
    rw [ih (write_u8 p start b) (start + 1) o (by simp at h; omega),
      read_u8_write_u8_ne p o start b (by simp at h; omega)]

theorem read_u8_write_bytes_in (p : LeafPage) (l : List Nat) :
    ∀ start i, i < l.length →
      read_u8 (write_bytes p start l) (start + i) = l.getD i 0 % 256 := by
  induction l generalizing p with
  | nil => intro start i h; simp at h
  | cons b bs ih =>
    intro start i h
    match i with
    | 0 =>
      simp only [write_bytes, Nat.add_zero, List.getD_cons_zero]
      rw [read_u8_write_bytes_out _ bs (start + 1) start (by omega),
        read_u8_write_u8_same]
    | Nat.succ j =>
      simp only [write_bytes, List.getD_cons_succ]
      have : start + (j + 1) = (start + 1) + j := by omega
      rw [this, ih (write_u8 p start b) (start + 1) j (by simpa using h)]

theorem read_u8_write_u32_out (p : LeafPage) (o o' v : Nat)
    (h : o < o' ∨ o' + 4 ≤ o) :
    read_u8 (write_u32 p o' v) o = read_u8 p o := by
  exact read_u8_write_bytes_out p _ o' o (by simpa using h)

theorem read_u32_write_u8_ne (p : LeafPage) (o o' v : Nat)
    (h : o' < o ∨ o + 4 ≤ o') :
    read_u32 (write_u8 p o' v) o = read_u32 p o := by
  unfold read_u32
  rw [read_u8_write_u8_ne p o o' v (by omega),
    read_u8_write_u8_ne p (o + 1) o' v (by omega),
    read_u8_write_u8_ne p (o + 2) o' v (by omega),
    read_u8_write_u8_ne p (o + 3) o' v (by omega)]

theorem read_u32_write_bytes_out (p : LeafPage) (l : List Nat) (start o : Nat)
    (h : o + 4 ≤ start ∨ start + l.length ≤ o) :
    read_u32 (write_bytes p start l) o = read_u32 p o := by
  unfold read_u32
  rw [read_u8_write_bytes_out p l start o (by omega),
    read_u8_write_bytes_out p l start (o + 1) (by omega),
    read_u8_write_bytes_out p l start (o + 2) (by omega),
    read_u8_write_bytes_out p l start (o + 3) (by omega)]

theorem read_u32_write_u32_out (p : LeafPage) (o o' v : Nat)
    (h : o + 4 ≤ o' ∨ o' + 4 ≤ o) :
    read_u32 (write_u32 p o' v) o = read_u32 p o := by
  exact read_u32_write_bytes_out p _ o' o (by simpa using h)

theorem read_u32_write_u32_same (p : LeafPage) (o v : Nat) :
    read_u32 (write_u32 p o v) o = v % 4294967296 := by
  unfold read_u32 write_u32
  have l4 : ([v % 256, v / 256 % 256, v / 65536 % 256, v / 16777216 % 256]).length = 4 := rfl
  have h0 := read_u8_write_bytes_in p
    [v % 256, v / 256 % 256, v / 65536 % 256, v / 16777216 % 256] o 0 (by simp)
  have h1 := read_u8_write_bytes_in p
    [v % 256, v / 256 % 256, v / 65536 % 256, v / 16777216 % 256] o 1 (by simp)
  have h2 := read_u8_write_bytes_in p
    [v % 256, v / 256 % 256, v / 65536 % 256, v / 16777216 % 256] o 2 (by simp)
  have h3 := read_u8_write_bytes_in p
    [v % 256, v / 256 % 256, v / 65536 % 256, v / 16777216 % 256] o 3 (by simp)
  simp only [Nat.add_zero, List.getD_cons_zero, List.getD_cons_succ] at h0 h1 h2 h3
  rw [h0, h1, h2, h3]
  omega

theorem read_bytes_write_u8_out (p : LeafPage) (o n o' v : Nat)
    (h : o' < o ∨ o + n ≤ o') :
    read_bytes (write_u8 p o' v) o n = read_bytes p o n := by
  unfold read_bytes
  apply List.map_congr_left
  intro i hi
  simp only [List.mem_range] at hi
  exact read_u8_write_u8_ne p (o + i) o' v (by omega)

theorem read_bytes_write_bytes_out (p : LeafPage) (l : List Nat) (start o n : Nat)
    (h : o + n ≤ start ∨ start + l.length ≤ o) :
    read_bytes (write_bytes p start l) o n = read_bytes p o n := by
  unfold read_bytes
  apply List.map_congr_left
  intro i hi
  simp only [List.mem_range] at hi
  exact read_u8_write_bytes_out p l start (o + i) (by omega)

theorem read_bytes_write_u32_out (p : LeafPage) (o n o' v : Nat)
    (h : o + n ≤ o' ∨ o' + 4 ≤ o) :
    read_bytes (write_u32 p o' v) o n = read_bytes p o n := by
  exact read_bytes_write_bytes_out p _ o' o n (by simpa using h)

theorem read_bytes_write_bytes_same (p : LeafPage) (l : List Nat) (start : Nat) :
    read_bytes (write_bytes p start l) start l.length = l.map (· % 256) := by
  apply List.ext_getElem
  · simp [read_bytes]
  · intro i h1 h2
    simp only [read_bytes, List.getElem_map, List.getElem_range]
    simp only [read_bytes, List.length_map, List.length_range] at h1
    rw [read_u8_write_bytes_in p l start i h1, List.getD_eq_getElem _ _ h1]

/-! ## Header-field frame lemmas -/

theorem head_update_tail (p : LeafPage) (v : Nat) :
    get_data_head_offset (update_data_tail_offset p v) = get_data_head_offset p := by
  unfold get_data_head_offset update_data_tail_offset DataPager.DATA_HEAD_OFFSET
    DataPager.DATA_TAIL_OFFSET
  exact read_u32_write_u32_out p 9 13 v (by omega)

theorem tail_update_tail (p : LeafPage) (v : Nat) :
    get_data_tail_offset (update_data_tail_offset p v) = v % 4294967296 := by
  unfold get_data_tail_offset update_data_tail_offset DataPager.DATA_TAIL_OFFSET
  exact read_u32_write_u32_same p 13 v

theorem head_update_head (p : LeafPage) (v : Nat) :
    get_data_head_offset (update_data_head_offset p v) = v % 4294967296 := by
  unfold get_data_head_offset update_data_head_offset DataPager.DATA_HEAD_OFFSET
  exact read_u32_write_u32_same p 9 v

theorem tail_update_head (p : LeafPage) (v : Nat) :
    get_data_tail_offset (update_data_head_offset p v) = get_data_tail_offset p := by
  unfold get_data_tail_offset update_data_head_offset DataPager.DATA_HEAD_OFFSET
    DataPager.DATA_TAIL_OFFSET
  exact read_u32_write_u32_out p 13 9 v (by omega)

theorem cap_update_tail (p : LeafPage) (v : Nat) :
    get_capacity (update_data_tail_offset p v) = get_capacity p := by
  unfold get_capacity update_data_tail_offset DataPager.CAPACITY DataPager.DATA_TAIL_OFFSET
  exact read_u32_write_u32_out p 1 13 v (by omega)

theorem cap_update_head (p : LeafPage) (v : Nat) :
    get_capacity (update_data_head_offset p v) = get_capacity p := by
  unfold get_capacity update_data_head_offset DataPager.CAPACITY DataPager.DATA_HEAD_OFFSET
  exact read_u32_write_u32_out p 1 9 v (by omega)

/-- A single byte write at or past offset 17 leaves all header fields
(header, capacity, head, tail) unchanged. -/
theorem fields_write_u8_high (p : LeafPage) (o v : Nat) (h : 17 ≤ o) :
    get_data_head_offset (write_u8 p o v) = get_data_head_offset p ∧
    get_data_tail_offset (write_u8 p o v) = get_data_tail_offset p ∧
    get_capacity (write_u8 p o v) = get_capacity p := by
  unfold get_data_head_offset get_data_tail_offset get_capacity
    DataPager.DATA_HEAD_OFFSET DataPager.DATA_TAIL_OFFSET DataPager.CAPACITY
  refine ⟨read_u32_write_u8_ne p 9 o v (by omega),
    read_u32_write_u8_ne p 13 o v (by omega),
    read_u32_write_u8_ne p 1 o v (by omega)⟩

/-- A byte-range write starting at or past offset 17 leaves all header
fields unchanged. -/
theorem fields_write_bytes_high (p : LeafPage) (l : List Nat) (start : Nat)
    (h : 17 ≤ start) :
    get_data_head_offset (write_bytes p start l) = get_data_head_offset p ∧
    get_data_tail_offset (write_bytes p start l) = get_data_tail_offset p ∧
    get_capacity (write_bytes p start l) = get_capacity p := by
  unfold get_data_head_offset get_data_tail_offset get_capacity
    DataPager.DATA_HEAD_OFFSET DataPager.DATA_TAIL_OFFSET DataPager.CAPACITY
  refine ⟨read_u32_write_bytes_out p l start 9 (by omega),
    read_u32_write_bytes_out p l start 13 (by omega),
    read_u32_write_bytes_out p l start 1 (by omega)⟩

theorem fields_write_u32_high (p : LeafPage) (o v : Nat) (h : 17 ≤ o) :
    get_data_head_offset (write_u32 p o v) = get_data_head_offset p ∧
    get_data_tail_offset (write_u32 p o v) = get_data_tail_offset p ∧
    get_capacity (write_u32 p o v) = get_capacity p :=
  fields_write_bytes_high p _ o h

/-- The slot directory is unchanged by a byte write at or above
`data_head_offset` (given `25 ≤ data_head_offset`). -/
theorem sorted_table_write_u8_high (p : LeafPage) (o v : Nat)
    (h25 : 25 ≤ get_data_head_offset p) (h : get_data_head_offset p ≤ o) :
    get_sorted_table (write_u8 p o v) = get_sorted_table p := by
  have hhead : get_data_head_offset (write_u8 p o v) = get_data_head_offset p := by
    unfold get_data_head_offset DataPager.DATA_HEAD_OFFSET
    exact read_u32_write_u8_ne p 9 o v (by omega)
  unfold get_sorted_table get_sorted_table_offset LeafPage.SORTED_TABLE
  rw [hhead]
  apply List.map_congr_left
  intro i hi
  simp only [List.mem_range] at hi
  have hin : 25 + 4 * i + 4 ≤ get_data_head_offset p := by omega
  exact read_u32_write_u8_ne p (25 + 4 * i) o v (by omega)

/-! ## Binary-search lemmas -/

theorem binary_search_loop_le (p : LeafPage) (key st : List Nat) :
    ∀ fuel left right, left ≤ right →
      (binary_search_loop p key st fuel left right).2 ≤ right := by
  intro fuel
  induction fuel with
  | zero => intro left right h; simpa [binary_search_loop]
  | succ n ih =>
    intro left right h
    simp only [binary_search_loop]
    split
    · rename_i hlt
      split
      · exact ih _ _ (by omega)
      · exact Nat.le_trans (ih _ _ (by omega)) (by omega)
      · simp; omega
    · simpa

theorem binary_search_loop_found_lt (p : LeafPage) (key st : List Nat) :
    ∀ fuel left right, left ≤ right →
      (binary_search_loop p key st fuel left right).1 = true →
      (binary_search_loop p key st fuel left right).2 < right := by
  intro fuel
  induction fuel with
  | zero => intro left right _ hfound; simp [binary_search_loop] at hfound
  | succ n ih =>
    intro left right h hfound
    simp only [binary_search_loop] at hfound ⊢
    split at hfound
    · rename_i hlt
      split at hfound
      · rw [if_pos hlt]
        exact ih _ _ (by omega) hfound
      · rw [if_pos hlt]
        exact Nat.lt_of_lt_of_le (ih _ _ (by omega) hfound) (by omega)
      · rw [if_pos hlt]
        simp
        omega
    · simp at hfound

/-- The search index is at most the directory length; a found index is
strictly below it. -/
theorem binary_search_le (p : LeafPage) (key st : List Nat) :
    (binary_search p key st).2 ≤ st.length := by
  unfold binary_search
  by_cases he : st.isEmpty
  · simp [he]
  · rw [if_neg he]
    exact binary_search_loop_le p key st st.length 0 st.length (by omega)

theorem binary_search_found_lt (p : LeafPage) (key st : List Nat)
    (h : (binary_search p key st).1 = true) :
    (binary_search p key st).2 < st.length := by
  unfold binary_search at h ⊢
  by_cases he : st.isEmpty
  · rw [if_pos he] at h; simp at h
  · rw [if_neg he] at h ⊢
    exact binary_search_loop_found_lt p key st st.length 0 st.length (by omega) h

/-- The search only reads the probed entries' key records: two pages that
agree on every entry's key length and key bytes search identically. -/
theorem binary_search_loop_congr (q p : LeafPage) (key st : List Nat)
    (hread : ∀ j, j < st.length →
      read_u32 q (st.getD j 0) = read_u32 p (st.getD j 0) ∧
      read_bytes q (st.getD j 0 + 4) (read_u32 p (st.getD j 0)) =
        read_bytes p (st.getD j 0 + 4) (read_u32 p (st.getD j 0))) :
    ∀ fuel left right, right ≤ st.length →
      binary_search_loop q key st fuel left right =
        binary_search_loop p key st fuel left right := by
  intro fuel
  induction fuel with
  | zero => intro left right _; rfl
  | succ n ih =>
    intro left right hr
    simp only [binary_search_loop]
    split
    · rename_i hlt
      have hmid : left + (right - left) / 2 < st.length := by omega
      obtain ⟨h1, h2⟩ := hread (left + (right - left) / 2) hmid
      rw [h1, h2]
      split
      · exact ih _ _ (by omega)
      · exact ih _ _ (by omega)
      · rfl
    · rfl

theorem binary_search_congr (q p : LeafPage) (key st : List Nat)
    (hread : ∀ j, j < st.length →
      read_u32 q (st.getD j 0) = read_u32 p (st.getD j 0) ∧
      read_bytes q (st.getD j 0 + 4) (read_u32 p (st.getD j 0)) =
        read_bytes p (st.getD j 0 + 4) (read_u32 p (st.getD j 0))) :
    binary_search q key st = binary_search p key st := by
  unfold binary_search
  by_cases he : st.isEmpty
  · rw [if_pos he, if_pos he]
  · rw [if_neg he, if_neg he]
    exact binary_search_loop_congr q p key st hread st.length 0 st.length (by omega)

/-! ## Allocation characterisations -/

theorem allocate_space_tail_ok (p : LeafPage) (size : Nat)
    (h1 : size ≤ get_data_tail_offset p)
    (h2 : get_data_head_offset p ≤ get_data_tail_offset p - size) :
    allocate_space_tail p size = PRes.ok (some (get_data_tail_offset p - size,
      update_data_tail_offset p (get_data_tail_offset p - size))) := by
  unfold allocate_space_tail
  rw [if_neg (by omega), if_neg (by omega)]

theorem allocate_space_head_ok (p : LeafPage) (size : Nat)
    (h : get_data_head_offset p + size ≤ get_data_tail_offset p) :
    allocate_space_head p size = some (get_data_head_offset p,
      update_data_head_offset p (get_data_head_offset p + size)) := by
  unfold allocate_space_head
  rw [if_neg (by omega)]

theorem allocate_space_head_none (p : LeafPage) (size : Nat)
    (h : get_data_tail_offset p < get_data_head_offset p + size) :
    allocate_space_head p size = none := by
  unfold allocate_space_head
  rw [if_pos (by omega)]

theorem read_u8_update_head_out (p : LeafPage) (o v : Nat) (h : o < 9 ∨ 13 ≤ o) :
    read_u8 (update_data_head_offset p v) o = read_u8 p o := by
  unfold update_data_head_offset DataPager.DATA_HEAD_OFFSET
  exact read_u8_write_u32_out p o 9 v (by omega)

theorem read_u8_update_tail_out (p : LeafPage) (o v : Nat) (h : o < 13 ∨ 17 ≤ o) :
    read_u8 (update_data_tail_offset p v) o = read_u8 p o := by
  unfold update_data_tail_offset DataPager.DATA_TAIL_OFFSET
  exact read_u8_write_u32_out p o 13 v (by omega)

theorem read_u32_update_head_out (p : LeafPage) (o v : Nat)
    (h : o + 4 ≤ 9 ∨ 13 ≤ o) :
    read_u32 (update_data_head_offset p v) o = read_u32 p o := by
  unfold update_data_head_offset DataPager.DATA_HEAD_OFFSET
  exact read_u32_write_u32_out p o 9 v (by omega)

theorem read_u32_update_tail_out (p : LeafPage) (o v : Nat)
    (h : o + 4 ≤ 13 ∨ 17 ≤ o) :
    read_u32 (update_data_tail_offset p v) o = read_u32 p o := by
  unfold update_data_tail_offset DataPager.DATA_TAIL_OFFSET
  exact read_u32_write_u32_out p o 13 v (by omega)

theorem read_bytes_length (p : LeafPage) (o n : Nat) :
    (read_bytes p o n).length = n := by
  simp [read_bytes]

/-- Main characterisation of `insert_value` when the free-space guard
passes: with exactly the checked space available the final head (slot)
allocation fails and the `unwrap()` panics; with one more byte the insert
succeeds, moving `data_head_offset` up by 4 and `data_tail_offset` down by
the value record plus the key record, and never writing the new key
record's tombstone byte. -/
theorem insert_value_main (p : LeafPage) (st : List Nat) (idx : Nat)
    (k v : List Nat)
    (hidx : idx ≤ st.length)
    (hh : 25 ≤ get_data_head_offset p)
    (hst : 25 + 4 * st.length ≤ get_data_head_offset p)
    (hfree16 : 16 + k.length + v.length ≤ get_free_space p) :
    (get_free_space p = 16 + k.length + v.length →
      insert_value p st idx k v = PRes.abort) ∧
    (17 + k.length + v.length ≤ get_free_space p →
      resultOk (insert_value p st idx k v) = true ∧
      get_data_head_offset (resultPage p (insert_value p st idx k v)) =
        get_data_head_offset p + 4 ∧
      get_data_tail_offset (resultPage p (insert_value p st idx k v)) =
        get_data_tail_offset p - (13 + k.length + v.length) ∧
      get_capacity (resultPage p (insert_value p st idx k v)) = get_capacity p ∧
      read_u8 (resultPage p (insert_value p st idx k v))
          (get_data_tail_offset p - (13 + k.length + v.length) + 4 + k.length) =
        read_u8 p
          (get_data_tail_offset p - (13 + k.length + v.length) + 4 + k.length) ∧
      read_u32 (resultPage p (insert_value p st idx k v))
          (get_data_tail_offset p - (13 + k.length + v.length)) =
        k.length % 4294967296) := by
  have ht32 : get_data_tail_offset p < 4294967296 := read_u32_lt p _
  have hh32 : get_data_head_offset p < 4294967296 := read_u32_lt p _
  have htl : get_data_head_offset p + (16 + k.length + v.length) ≤
      get_data_tail_offset p := by
    unfold get_free_space at hfree16; omega
  set nvo := get_data_tail_offset p - (4 + v.length) with hnvo
  set nko := get_data_tail_offset p - (13 + k.length + v.length) with hnko
  have hnvo_ge : get_data_head_offset p + 12 + k.length ≤ nvo := by omega
  have hnko_ge : get_data_head_offset p + 3 ≤ nko := by omega
  have hnvo_eq : nvo = nko + 9 + k.length := by omega
  -- step 1: the value-record tail allocation
  have e1 : allocate_space_tail p (get_value_required_space v) =
      PRes.ok (some (nvo, update_data_tail_offset p nvo)) := by
    unfold get_value_required_space
    rw [allocate_space_tail_ok p (4 + v.length) (by omega) (by omega)]
  -- fields after the value-record writes
  have hp1h : get_data_head_offset (update_data_tail_offset p nvo) =
      get_data_head_offset p := head_update_tail p nvo
  have hp1t : get_data_tail_offset (update_data_tail_offset p nvo) = nvo := by
    rw [tail_update_tail]; exact Nat.mod_eq_of_lt (by omega)
  have hp1c : get_capacity (update_data_tail_offset p nvo) = get_capacity p :=
    cap_update_tail p nvo
  have hp2f := fields_write_u32_high (update_data_tail_offset p nvo) nvo v.length
    (by omega)
  have hp3f := fields_write_bytes_high
    (write_u32 (update_data_tail_offset p nvo) nvo v.length) v (nvo + 4) (by omega)
  have hp3h : get_data_head_offset
      (write_bytes (write_u32 (update_data_tail_offset p nvo) nvo v.length)
        (nvo + 4) v) = get_data_head_offset p := by
    rw [hp3f.1, hp2f.1, hp1h]
  have hp3t : get_data_tail_offset
      (write_bytes (write_u32 (update_data_tail_offset p nvo) nvo v.length)
        (nvo + 4) v) = nvo := by
    rw [hp3f.2.1, hp2f.2.1, hp1t]
  have hp3c : get_capacity
      (write_bytes (write_u32 (update_data_tail_offset p nvo) nvo v.length)
        (nvo + 4) v) = get_capacity p := by
    rw [hp3f.2.2, hp2f.2.2, hp1c]
  -- step 2: the key-record tail allocation
  have e2 : allocate_space_tail
      (write_bytes (write_u32 (update_data_tail_offset p nvo) nvo v.length)
        (nvo + 4) v) (get_key_required_space k) =
      PRes.ok (some (nko, update_data_tail_offset
        (write_bytes (write_u32 (update_data_tail_offset p nvo) nvo v.length)
          (nvo + 4) v) nko)) := by
    unfold get_key_required_space
    rw [allocate_space_tail_ok _ (4 + k.length + 1 + 4) (by rw [hp3t]; omega)
      (by rw [hp3t, hp3h]; omega), hp3t]
    have : nvo - (4 + k.length + 1 + 4) = nko := by omega
    rw [this]
  -- fields after the key-record writes
  have hp4h : get_data_head_offset (update_data_tail_offset
      (write_bytes (write_u32 (update_data_tail_offset p nvo) nvo v.length)
        (nvo + 4) v) nko) = get_data_head_offset p := by
    rw [head_update_tail, hp3h]
  have hp4t : get_data_tail_offset (update_data_tail_offset
      (write_bytes (write_u32 (update_data_tail_offset p nvo) nvo v.length)
        (nvo + 4) v) nko) = nko := by
    rw [tail_update_tail]; exact Nat.mod_eq_of_lt (by omega)
  have hp4c : get_capacity (update_data_tail_offset
      (write_bytes (write_u32 (update_data_tail_offset p nvo) nvo v.length)
        (nvo + 4) v) nko) = get_capacity p := by
    rw [cap_update_tail, hp3c]
  have hp5f := fields_write_u32_high (update_data_tail_offset
      (write_bytes (write_u32 (update_data_tail_offset p nvo) nvo v.length)
        (nvo + 4) v) nko) nko k.length (by omega)
  have hp6f := fields_write_bytes_high (write_u32 (update_data_tail_offset
      (write_bytes (write_u32 (update_data_tail_offset p nvo) nvo v.length)
        (nvo + 4) v) nko) nko k.length) k (nko + 4) (by omega)
  have hp7f := fields_write_u32_high (write_bytes (write_u32 (update_data_tail_offset
      (write_bytes (write_u32 (update_data_tail_offset p nvo) nvo v.length)
        (nvo + 4) v) nko) nko k.length) (nko + 4) k)
    (get_value_offset_position nko k.length) nvo
    (by unfold get_value_offset_position; omega)
  have hp7h : get_data_head_offset (write_u32 (write_bytes (write_u32
      (update_data_tail_offset (write_bytes (write_u32 (update_data_tail_offset p nvo)
        nvo v.length) (nvo + 4) v) nko) nko k.length) (nko + 4) k)
      (get_value_offset_position nko k.length) nvo) = get_data_head_offset p := by
    rw [hp7f.1, hp6f.1, hp5f.1, hp4h]
  have hp7t : get_data_tail_offset (write_u32 (write_bytes (write_u32
      (update_data_tail_offset (write_bytes (write_u32 (update_data_tail_offset p nvo)
        nvo v.length) (nvo + 4) v) nko) nko k.length) (nko + 4) k)
      (get_value_offset_position nko k.length) nvo) = nko := by
    rw [hp7f.2.1, hp6f.2.1, hp5f.2.1, hp4t]
  have hp7c : get_capacity (write_u32 (write_bytes (write_u32
      (update_data_tail_offset (write_bytes (write_u32 (update_data_tail_offset p nvo)
        nvo v.length) (nvo + 4) v) nko) nko k.length) (nko + 4) k)
      (get_value_offset_position nko k.length) nvo) = get_capacity p := by
    rw [hp7f.2.2, hp6f.2.2, hp5f.2.2, hp4c]
  have h16lt : 4 + k.length + 4 + 4 + v.length + 4 < 4294967296 := by
    unfold get_free_space at hfree16
    omega
  have hguard : ¬ (get_free_space p <
      (4 + k.length + 4 + 4 + v.length + 4) % 4294967296) := by
    rw [Nat.mod_eq_of_lt h16lt]
    omega
  constructor
  · -- exactly the checked space: the head (slot) allocation underflows the guard
    intro h16
    have hnko3 : nko = get_data_head_offset p + 3 := by
      unfold get_free_space at h16; omega
    have e3 : allocate_space_head (write_u32 (write_bytes (write_u32
        (update_data_tail_offset (write_bytes (write_u32 (update_data_tail_offset p nvo)
          nvo v.length) (nvo + 4) v) nko) nko k.length) (nko + 4) k)
        (get_value_offset_position nko k.length) nvo) 4 = none := by
      apply allocate_space_head_none
      rw [hp7h, hp7t]; omega
    simp only [insert_value]
    rw [if_neg hguard]
    simp only [e1, e2, e3]
  · -- at least one spare byte: the insert succeeds
    intro h17
    have hnko4 : get_data_head_offset p + 4 ≤ nko := by
      unfold get_free_space at h17; omega
    have e3 : allocate_space_head (write_u32 (write_bytes (write_u32
        (update_data_tail_offset (write_bytes (write_u32 (update_data_tail_offset p nvo)
          nvo v.length) (nvo + 4) v) nko) nko k.length) (nko + 4) k)
        (get_value_offset_position nko k.length) nvo) 4 =
        some (get_data_head_offset p, update_data_head_offset (write_u32 (write_bytes
          (write_u32 (update_data_tail_offset (write_bytes (write_u32
            (update_data_tail_offset p nvo) nvo v.length) (nvo + 4) v) nko)
          nko k.length) (nko + 4) k) (get_value_offset_position nko k.length) nvo)
          (get_data_head_offset p + 4)) := by
      have := allocate_space_head_ok (write_u32 (write_bytes (write_u32
        (update_data_tail_offset (write_bytes (write_u32 (update_data_tail_offset p nvo)
          nvo v.length) (nvo + 4) v) nko) nko k.length) (nko + 4) k)
        (get_value_offset_position nko k.length) nvo) 4 (by rw [hp7h, hp7t]; omega)
      rw [hp7h] at this
      exact this
    -- fields of the page after the head allocation
    have hp8h : get_data_head_offset (update_data_head_offset (write_u32 (write_bytes
        (write_u32 (update_data_tail_offset (write_bytes (write_u32
          (update_data_tail_offset p nvo) nvo v.length) (nvo + 4) v) nko)
        nko k.length) (nko + 4) k) (get_value_offset_position nko k.length) nvo)
        (get_data_head_offset p + 4)) = get_data_head_offset p + 4 := by
      rw [head_update_head]; exact Nat.mod_eq_of_lt (by omega)
    have hp8t : get_data_tail_offset (update_data_head_offset (write_u32 (write_bytes
        (write_u32 (update_data_tail_offset (write_bytes (write_u32
          (update_data_tail_offset p nvo) nvo v.length) (nvo + 4) v) nko)
        nko k.length) (nko + 4) k) (get_value_offset_position nko k.length) nvo)
        (get_data_head_offset p + 4)) = nko := by
      rw [tail_update_head, hp7t]
    have hp8c : get_capacity (update_data_head_offset (write_u32 (write_bytes
        (write_u32 (update_data_tail_offset (write_bytes (write_u32
          (update_data_tail_offset p nvo) nvo v.length) (nvo + 4) v) nko)
        nko k.length) (nko + 4) k) (get_value_offset_position nko k.length) nvo)
        (get_data_head_offset p + 4)) = get_capacity p := by
      rw [cap_update_head, hp7c]
    -- the untouched tombstone byte, read through every write of the insert
    have hbyte8 : read_u8 (update_data_head_offset (write_u32 (write_bytes
        (write_u32 (update_data_tail_offset (write_bytes (write_u32
          (update_data_tail_offset p nvo) nvo v.length) (nvo + 4) v) nko)
        nko k.length) (nko + 4) k) (get_value_offset_position nko k.length) nvo)
        (get_data_head_offset p + 4)) (nko + 4 + k.length) =
        read_u8 p (nko + 4 + k.length) := by
      rw [read_u8_update_head_out _ _ _ (by omega)]
      rw [read_u8_write_u32_out _ _ (get_value_offset_position nko k.length) nvo
        (by unfold get_value_offset_position; omega)]
      rw [read_u8_write_bytes_out _ k (nko + 4) _ (by omega)]
      rw [read_u8_write_u32_out _ _ nko k.length (by omega)]
      rw [read_u8_update_tail_out _ _ _ (by omega)]
      rw [read_u8_write_bytes_out _ v (nvo + 4) _ (by omega)]
      rw [read_u8_write_u32_out _ _ nvo v.length (by omega)]
      rw [read_u8_update_tail_out _ _ _ (by omega)]
    -- the key-length field of the new record, read back
    have hks8 : read_u32 (update_data_head_offset (write_u32 (write_bytes
        (write_u32 (update_data_tail_offset (write_bytes (write_u32
          (update_data_tail_offset p nvo) nvo v.length) (nvo + 4) v) nko)
        nko k.length) (nko + 4) k) (get_value_offset_position nko k.length) nvo)
        (get_data_head_offset p + 4)) nko = k.length % 4294967296 := by
      rw [read_u32_update_head_out _ _ _ (by omega)]
      rw [read_u32_write_u32_out _ _ (get_value_offset_position nko k.length) nvo
        (by unfold get_value_offset_position; omega)]
      rw [read_u32_write_bytes_out _ k (nko + 4) _ (by omega)]
      rw [read_u32_write_u32_same]
    simp only [insert_value]
    rw [if_neg hguard]
    simp only [e1, e2, e3]
    by_cases hbr : st.isEmpty = true ∨ idx = st.length - 1
    · rw [if_pos hbr]
      simp only [resultOk, resultPage]
      have hq := fields_write_u32_high (update_data_head_offset (write_u32 (write_bytes
        (write_u32 (update_data_tail_offset (write_bytes (write_u32
          (update_data_tail_offset p nvo) nvo v.length) (nvo + 4) v) nko)
        nko k.length) (nko + 4) k) (get_value_offset_position nko k.length) nvo)
        (get_data_head_offset p + 4)) (get_data_head_offset p) nko (by omega)
      refine ⟨trivial, ?_, ?_, ?_, ?_, ?_⟩
      · rw [hq.1, hp8h]
      · rw [hq.2.1, hp8t]
      · rw [hq.2.2, hp8c]
      · rw [read_u8_write_u32_out _ _ (get_data_head_offset p) nko (by omega), hbyte8]
      · rw [read_u32_write_u32_out _ _ (get_data_head_offset p) nko (by omega), hks8]
    · rw [if_neg hbr]
      simp only [resultOk, resultPage]
      have hmv : (read_bytes (update_data_head_offset (write_u32 (write_bytes
          (write_u32 (update_data_tail_offset (write_bytes (write_u32
            (update_data_tail_offset p nvo) nvo v.length) (nvo + 4) v) nko)
          nko k.length) (nko + 4) k) (get_value_offset_position nko k.length) nvo)
          (get_data_head_offset p + 4)) (LeafPage.SORTED_TABLE + 4 * idx)
          ((st.length - idx) * 4)).length = (st.length - idx) * 4 :=
        read_bytes_length _ _ _
      have hw1 := fields_write_bytes_high (update_data_head_offset (write_u32
        (write_bytes (write_u32 (update_data_tail_offset (write_bytes (write_u32
          (update_data_tail_offset p nvo) nvo v.length) (nvo + 4) v) nko)
        nko k.length) (nko + 4) k) (get_value_offset_position nko k.length) nvo)
        (get_data_head_offset p + 4))
        (read_bytes (update_data_head_offset (write_u32 (write_bytes
          (write_u32 (update_data_tail_offset (write_bytes (write_u32
            (update_data_tail_offset p nvo) nvo v.length) (nvo + 4) v) nko)
          nko k.length) (nko + 4) k) (get_value_offset_position nko k.length) nvo)
          (get_data_head_offset p + 4)) (LeafPage.SORTED_TABLE + 4 * idx)
          ((st.length - idx) * 4))
        (LeafPage.SORTED_TABLE + 4 * idx + 4)
        (by simp only [LeafPage.SORTED_TABLE]; omega)
      have hq := fields_write_u32_high (write_bytes (update_data_head_offset (write_u32
        (write_bytes (write_u32 (update_data_tail_offset (write_bytes (write_u32
          (update_data_tail_offset p nvo) nvo v.length) (nvo + 4) v) nko)
        nko k.length) (nko + 4) k) (get_value_offset_position nko k.length) nvo)
        (get_data_head_offset p + 4))
        (LeafPage.SORTED_TABLE + 4 * idx + 4)
        (read_bytes (update_data_head_offset (write_u32 (write_bytes
          (write_u32 (update_data_tail_offset (write_bytes (write_u32
            (update_data_tail_offset p nvo) nvo v.length) (nvo + 4) v) nko)
          nko k.length) (nko + 4) k) (get_value_offset_position nko k.length) nvo)
          (get_data_head_offset p + 4)) (LeafPage.SORTED_TABLE + 4 * idx)
          ((st.length - idx) * 4)))
        (LeafPage.SORTED_TABLE + 4 * idx) nko
        (by simp only [LeafPage.SORTED_TABLE]; omega)
      refine ⟨trivial, ?_, ?_, ?_, ?_, ?_⟩
      · rw [hq.1, hw1.1, hp8h]
      · rw [hq.2.1, hw1.2.1, hp8t]
      · rw [hq.2.2, hw1.2.2, hp8c]
      · rw [read_u8_write_u32_out _ _ (LeafPage.SORTED_TABLE + 4 * idx) nko
          (by simp only [LeafPage.SORTED_TABLE]; omega)]
        rw [read_u8_write_bytes_out _ _ (LeafPage.SORTED_TABLE + 4 * idx + 4) _
          (by rw [hmv]; simp only [LeafPage.SORTED_TABLE]; omega)]
        exact hbyte8
      · rw [read_u32_write_u32_out _ _ (LeafPage.SORTED_TABLE + 4 * idx) nko
          (by simp only [LeafPage.SORTED_TABLE]; omega)]
        rw [read_u32_write_bytes_out _ _ (LeafPage.SORTED_TABLE + 4 * idx + 4) _
          (by rw [hmv]; simp only [LeafPage.SORTED_TABLE]; omega)]
        exact hks8

/-- `insert_value` returns `false` only from its free-space guard, before
any byte is written. -/
theorem insert_value_false (p : LeafPage) (st : List Nat) (idx : Nat)
    (k v : List Nat) (q : LeafPage)
    (h : insert_value p st idx k v = PRes.ok (false, q)) : q = p := by
  simp only [insert_value] at h
  split at h
  · simp only [PRes.ok.injEq, Prod.mk.injEq] at h
    exact h.2.symm
  · split at h
    · simp at h
    · simp at h
    · split at h
      · simp at h
      · simp at h
      · split at h
        · simp at h
        · split at h
          · simp at h
          · simp at h

/-- `override_value` returns `false` only from its free-space guard, before
any byte is written. -/
theorem override_value_false (p : LeafPage) (st : List Nat) (idx : Nat)
    (k v : List Nat) (q : LeafPage)
    (h : override_value p st idx k v = PRes.ok (false, q)) : q = p := by
  simp only [override_value] at h
  split at h
  · split at h
    · simp at h
    · simp at h
  · split at h
    · simp only [PRes.ok.injEq, Prod.mk.injEq] at h
      exact h.2.symm
    · split at h
      · simp at h
      · simp at h
      · simp at h

theorem valid_common_data_none_iff (p : LeafPage) (length : Nat) :
    valid_common_data p length LeafPage.HEADER = none ↔
      (get_header p = LeafPage.HEADER ∧ get_capacity p = length ∧
       LeafPage.SORTED_TABLE ≤ get_data_head_offset p ∧
       get_data_head_offset p ≤ get_data_tail_offset p ∧
       get_data_tail_offset p ≤ length) := by
  unfold valid_common_data get_sorted_table_offset
  split_ifs with h1 h2 h3 h4 <;> simp_all
  omega

/-! ## Claim theorems -/

/-- C3: if `insert_or_update` returns `false` (insufficient free space), the
page is unchanged: the free-space check happens strictly before any byte is
mutated, on both the fresh-insert path and the override path, so in
particular `data_head_offset` and `data_tail_offset` keep their prior
values. -/
theorem C3_rejected_operation_leaves_page_unchanged (p : LeafPage)
    (key value : List Nat) (q : LeafPage)
    (h : insert_key_value p key value = PRes.ok (false, q)) : q = p := by
  simp only [insert_key_value] at h
  split at h
  · exact override_value_false p _ _ key value q h
  · exact insert_value_false p _ _ key value q h

theorem C3_witness :
    insert_key_value (LeafPage.new 40) [1] [2] = PRes.ok (false, LeafPage.new 40) ∧
    LeafPage.new 40 = LeafPage.new 40 :=
  ⟨rfl, C3_rejected_operation_leaves_page_unchanged (LeafPage.new 40) [1] [2]
    (LeafPage.new 40) rfl⟩

/-- C7: `LeafPage::from` succeeds exactly when the header byte is the leaf
constant `0b1000_0000`, the stored capacity equals the mapped length,
`data_head_offset ≥ 25` (the leaf slot-directory start), and
`data_tail_offset` lies in `[data_head_offset, capacity]`; on success the
returned page is exactly the mapped buffer, and on any violation a
structural-corruption error is returned and no page is produced. -/
theorem C7_from_validates_structure (length : Nat) (mem : Nat → Nat) :
    (LeafPage.from_ length mem = Except.ok ⟨length, mem⟩ ↔
      (get_header ⟨length, mem⟩ = LeafPage.HEADER ∧
       get_capacity ⟨length, mem⟩ = length ∧
       LeafPage.SORTED_TABLE ≤ get_data_head_offset ⟨length, mem⟩ ∧
       get_data_head_offset ⟨length, mem⟩ ≤ get_data_tail_offset ⟨length, mem⟩ ∧
       get_data_tail_offset ⟨length, mem⟩ ≤ length)) ∧
    (∀ q, LeafPage.from_ length mem = Except.ok q → q = ⟨length, mem⟩) ∧
    (¬ (get_header ⟨length, mem⟩ = LeafPage.HEADER ∧
        get_capacity ⟨length, mem⟩ = length ∧
        LeafPage.SORTED_TABLE ≤ get_data_head_offset ⟨length, mem⟩ ∧
        get_data_head_offset ⟨length, mem⟩ ≤ get_data_tail_offset ⟨length, mem⟩ ∧
        get_data_tail_offset ⟨length, mem⟩ ≤ length) →
      ∃ e, LeafPage.from_ length mem = Except.error e) := by
  refine ⟨⟨fun h => ?_, fun h => ?_⟩, fun q hq => ?_, fun h => ?_⟩
  · simp only [LeafPage.from_] at h
    rcases hv : valid_common_data ⟨length, mem⟩ length LeafPage.HEADER with _ | e
    · exact (valid_common_data_none_iff ⟨length, mem⟩ length).mp hv
    · rw [hv] at h
      simp at h
  · simp only [LeafPage.from_]
    rw [(valid_common_data_none_iff ⟨length, mem⟩ length).mpr h]
  · simp only [LeafPage.from_] at hq
    rcases hv : valid_common_data ⟨length, mem⟩ length LeafPage.HEADER with _ | e
    · rw [hv] at hq
      simp only [Except.ok.injEq] at hq
      exact hq.symm
    · rw [hv] at hq
      simp at hq
  · simp only [LeafPage.from_]
    rcases hv : valid_common_data ⟨length, mem⟩ length LeafPage.HEADER with _ | e
    · exact absurd ((valid_common_data_none_iff ⟨length, mem⟩ length).mp hv) h
    · exact ⟨e, rfl⟩

theorem C7_witness :
    LeafPage.from_ 40 (LeafPage.new 40).mem = Except.ok ⟨40, (LeafPage.new 40).mem⟩ ∧
    (∃ e, LeafPage.from_ 40 (fun _ => 0) = Except.error e) :=
  ⟨(C7_from_validates_structure 40 (LeafPage.new 40).mem).1.mpr (by decide),
   (C7_from_validates_structure 40 (fun _ => 0)).2.2 (by decide)⟩

/-- C9: `allocate_space_tail` computes `data_tail_offset - size` before its
bounds check, so a call with `size > data_tail_offset` panics on the usize
underflow instead of returning `None`; the `new_tail < data_head_offset`
guard only protects calls with `size ≤ data_tail_offset`, where the call
never panics (it returns `None` exactly when the guard fires). -/
theorem C9_tail_allocation_underflow_panics (p : LeafPage) (size : Nat) :
    (get_data_tail_offset p < size → allocate_space_tail p size = PRes.abort) ∧
    (size ≤ get_data_tail_offset p → allocate_space_tail p size ≠ PRes.abort) ∧
    (size ≤ get_data_tail_offset p →
      get_data_tail_offset p - size < get_data_head_offset p →
      allocate_space_tail p size = PRes.ok none) := by
  refine ⟨fun h => ?_, fun h => ?_, fun h1 h2 => ?_⟩
  · simp only [allocate_space_tail]
    rw [if_pos h]
  · simp only [allocate_space_tail]
    rw [if_neg (by omega)]
    split <;> simp
  · simp only [allocate_space_tail]
    rw [if_neg (by omega), if_pos h2]

theorem C9_witness :
    allocate_space_tail (LeafPage.new 40) 100 = PRes.abort ∧
    allocate_space_tail (LeafPage.new 40) 10 ≠ PRes.abort :=
  ⟨(C9_tail_allocation_underflow_panics (LeafPage.new 40) 100).1 (by decide),
   (C9_tail_allocation_underflow_panics (LeafPage.new 40) 10).2.1 (by decide)⟩

/-! ## Concrete executions used by the remaining claims -/

/-- A fresh zero-backed 512-byte leaf page (the page size of the source's
own tests). -/
def c1_page0 : LeafPage := LeafPage.new 512

def c1_res1 : PRes (Bool × LeafPage) := insert_key_value c1_page0 [2] [9]

def c1_page1 : LeafPage := resultPage c1_page0 c1_res1

def c1_res2 : PRes (Bool × LeafPage) := insert_key_value c1_page1 [1] [9]

def c1_page2 : LeafPage := resultPage c1_page1 c1_res2

/-- C1: refuted on the code.  On a fresh 512-byte page, inserting key `[2]`
and then key `[1]` (insertion point 0, strictly before the end of the
one-entry directory) takes the `index == sorted_table.len() - 1` branch of
`insert_value`, which writes the new heap-offset at the newly allocated end
position instead of shifting: the directory keys come out `[[2], [1]]`,
which is not strictly ascending. -/
theorem C1_insertion_before_end_breaks_sort_order :
    resultOk c1_res1 = true ∧
    resultOk c1_res2 = true ∧
    get_sorted_table c1_page1 = [497] ∧
    binary_search c1_page1 [1] (get_sorted_table c1_page1) = (false, 0) ∧
    table_keys c1_page2 = [[2], [1]] ∧
    ¬ strictly_ascending (table_keys c1_page2) := by decide

def c45_page0 : LeafPage := LeafPage.new 512

def c45_page1 : LeafPage := resultPage c45_page0 (insert_key_value c45_page0 [97] [5])

def c45_page2 : LeafPage := resultPage c45_page1 (insert_key_value c45_page1 [99] [6])

def c45_res3 : PRes (Bool × LeafPage) := insert_key_value c45_page2 [98] [7]

def c45_page3 : LeafPage := resultPage c45_page2 c45_res3

/-- C4: refuted on the code.  Insert `[97]`, `[99]`, then `[98]` on a fresh
512-byte page: the third insert returns `true` but lands out of order (keys
`[[97],[99],[98]]`), and the immediately following `get([98])` misses in
the binary search and returns nothing instead of the inserted value
`[7]`. -/
theorem C4_round_trip_fails_after_true_insert :
    resultOk (insert_key_value c45_page0 [97] [5]) = true ∧
    resultOk (insert_key_value c45_page1 [99] [6]) = true ∧
    resultOk c45_res3 = true ∧
    table_keys c45_page3 = [[97], [99], [98]] ∧
    get_value c45_page3 [98] = none := by decide

/-- C5: refuted on the code.  On the same page as C4, after
`insert_or_update([98],[7])` returned `true`, `delete([98])` misses in the
binary search and returns `false` instead of the claimed `true`. -/
theorem C5_delete_after_true_insert_fails :
    resultOk c45_res3 = true ∧
    (delete_value c45_page3 [98]).1 = false := by decide

/-- C8 (counterexample): `LeafPage::new` with mapped length 20 writes
`data_head_offset = 25` and `data_tail_offset = 20`, so the claimed
invariant `SORTED_TABLE ≤ head ≤ tail ≤ capacity` is already violated on a
page created by `new`. -/
theorem C8_counterexample_new_short_page :
    get_data_head_offset (LeafPage.new 20) = 25 ∧
    get_data_tail_offset (LeafPage.new 20) = 20 ∧
    ¬ PageInv (LeafPage.new 20) := by decide

/-- A crafted 1536-byte buffer that passes every `from` validation check:
header `0b1000_0000`, capacity 1536, `data_head_offset = 1281`,
`data_tail_offset = 1536`, and all 314 slot entries equal to 5 — an offset
inside the header fields, whose "key record" overlaps `data_head_offset`
itself. -/
def c6_mem : Nat → Nat := fun i =>
  if i = 0 then 128
  else if i = 2 then 6
  else if i = 9 then 1
  else if i = 10 then 5
  else if i = 14 then 6
  else if 25 ≤ i ∧ i < 1281 ∧ (i - 25) % 4 = 0 then 5
  else 0

def c6_page : LeafPage := ⟨1536, c6_mem⟩

set_option maxRecDepth 40000 in
/-- C6 (counterexample): on this `from`-valid page the empty key is present
(found at slot 157, heap-offset 5) with stored value `[]` and tombstone set;
`insert_or_update([], [])` takes the identical-value path, returns `true`
and clears the "tombstone" — but that byte is byte 0 of `data_head_offset`,
which drops from 1281 to 1280, violating the claimed "data_head_offset
unchanged". -/
theorem C6_counterexample_aliasing_record :
    LeafPage.from_ 1536 c6_mem = Except.ok c6_page ∧
    binary_search c6_page [] (get_sorted_table c6_page) = (true, 157) ∧
    get_value_by_key_offset c6_page ((get_sorted_table c6_page).getD 157 0) =
      (true, []) ∧
    resultOk (insert_key_value c6_page [] []) = true ∧
    get_data_head_offset c6_page = 1281 ∧
    get_data_head_offset (resultPage c6_page (insert_key_value c6_page [] [])) =
      1280 :=
  ⟨rfl, by decide, by decide, by decide, by decide, by decide⟩

theorem sorted_table_length (p : LeafPage) :
    (get_sorted_table p).length =
      (get_data_head_offset p - get_sorted_table_offset) / 4 := by
  simp [get_sorted_table]

theorem allocate_space_tail_ok_inv (p : LeafPage) (size a : Nat) (q : LeafPage)
    (h : allocate_space_tail p size = PRes.ok (some (a, q))) :
    size ≤ get_data_tail_offset p ∧
    get_data_head_offset p ≤ get_data_tail_offset p - size ∧
    a = get_data_tail_offset p - size ∧
    q = update_data_tail_offset p (get_data_tail_offset p - size) := by
  simp only [allocate_space_tail] at h
  split at h
  · simp at h
  · split at h
    · simp at h
    · rename_i hsz hguard
      simp only [PRes.ok.injEq, Option.some.injEq, Prod.mk.injEq] at h
      exact ⟨by omega, by omega, h.1.symm, h.2.symm⟩

theorem allocate_space_head_ok_inv (p : LeafPage) (size a : Nat) (q : LeafPage)
    (h : allocate_space_head p size = some (a, q)) :
    get_data_head_offset p + size ≤ get_data_tail_offset p ∧
    a = get_data_head_offset p ∧
    q = update_data_head_offset p (get_data_head_offset p + size) := by
  simp only [allocate_space_head] at h
  split at h
  · simp at h
  · rename_i hg
    simp only [Option.some.injEq, Prod.mk.injEq] at h
    exact ⟨by omega, h.1.symm, h.2.symm⟩

/-- A successful insert implies the page really had room for the value
record, the key record and the slot entry: the allocation guards enforce
`17 + key.len() + value.len() ≤ free_space` even when the u32-truncated
required-space check wrapped. -/
theorem insert_value_true_free (p : LeafPage) (st : List Nat) (idx : Nat)
    (k v : List Nat) (q : LeafPage)
    (hh : 25 ≤ get_data_head_offset p)
    (h : insert_value p st idx k v = PRes.ok (true, q)) :
    17 + k.length + v.length ≤ get_free_space p := by
  have ht32 : get_data_tail_offset p < 4294967296 := read_u32_lt p _
  simp only [insert_value, get_value_required_space, get_key_required_space] at h
  split at h
  · simp at h
  · split at h
    · simp at h
    · simp at h
    · rename_i nvo p1 heq1
      obtain ⟨hsz1, hg1, hnvo, hp1⟩ := allocate_space_tail_ok_inv _ _ _ _ heq1
      subst hnvo
      subst hp1
      split at h
      · simp at h
      · simp at h
      · rename_i nko p4 heq2
        have hq1t : get_data_tail_offset (update_data_tail_offset p
            (get_data_tail_offset p - (4 + v.length))) =
            get_data_tail_offset p - (4 + v.length) := by
          rw [tail_update_tail]
          exact Nat.mod_eq_of_lt (by omega)
        have hq1h : get_data_head_offset (update_data_tail_offset p
            (get_data_tail_offset p - (4 + v.length))) = get_data_head_offset p :=
          head_update_tail p _
        have h2f := fields_write_u32_high (update_data_tail_offset p
            (get_data_tail_offset p - (4 + v.length)))
            (get_data_tail_offset p - (4 + v.length)) v.length (by omega)
        have h3f := fields_write_bytes_high (write_u32 (update_data_tail_offset p
            (get_data_tail_offset p - (4 + v.length)))
            (get_data_tail_offset p - (4 + v.length)) v.length) v
            (get_data_tail_offset p - (4 + v.length) + 4) (by omega)
        obtain ⟨hsz2, hg2, hnko, hp4⟩ := allocate_space_tail_ok_inv _ _ _ _ heq2
        rw [h3f.1, h2f.1, hq1h, h3f.2.1, h2f.2.1, hq1t] at hg2
        rw [h3f.2.1, h2f.2.1, hq1t] at hsz2 hnko hp4
        subst hnko
        subst hp4
        split at h
        · simp at h
        · rename_i ho p8 heq3
          obtain ⟨hha, hho, hp8⟩ := allocate_space_head_ok_inv _ _ _ _ heq3
          have hP4h : get_data_head_offset (update_data_tail_offset
              (write_bytes (write_u32 (update_data_tail_offset p
                (get_data_tail_offset p - (4 + v.length)))
                (get_data_tail_offset p - (4 + v.length)) v.length)
                (get_data_tail_offset p - (4 + v.length) + 4) v)
              (get_data_tail_offset p - (4 + v.length) - (4 + k.length + 1 + 4))) =
              get_data_head_offset p := by
            rw [head_update_tail, h3f.1, h2f.1, hq1h]
          have hP4t : get_data_tail_offset (update_data_tail_offset
              (write_bytes (write_u32 (update_data_tail_offset p
                (get_data_tail_offset p - (4 + v.length)))
                (get_data_tail_offset p - (4 + v.length)) v.length)
                (get_data_tail_offset p - (4 + v.length) + 4) v)
              (get_data_tail_offset p - (4 + v.length) - (4 + k.length + 1 + 4))) =
              get_data_tail_offset p - (4 + v.length) - (4 + k.length + 1 + 4) := by
            rw [tail_update_tail]
            exact Nat.mod_eq_of_lt (by omega)
          have h5f := fields_write_u32_high (update_data_tail_offset
              (write_bytes (write_u32 (update_data_tail_offset p
                (get_data_tail_offset p - (4 + v.length)))
                (get_data_tail_offset p - (4 + v.length)) v.length)
                (get_data_tail_offset p - (4 + v.length) + 4) v)
              (get_data_tail_offset p - (4 + v.length) - (4 + k.length + 1 + 4)))
              (get_data_tail_offset p - (4 + v.length) - (4 + k.length + 1 + 4))
              k.length (by omega)
          have h6f := fields_write_bytes_high (write_u32 (update_data_tail_offset
              (write_bytes (write_u32 (update_data_tail_offset p
                (get_data_tail_offset p - (4 + v.length)))
                (get_data_tail_offset p - (4 + v.length)) v.length)
                (get_data_tail_offset p - (4 + v.length) + 4) v)
              (get_data_tail_offset p - (4 + v.length) - (4 + k.length + 1 + 4)))
              (get_data_tail_offset p - (4 + v.length) - (4 + k.length + 1 + 4))
              k.length) k
              (get_data_tail_offset p - (4 + v.length) - (4 + k.length + 1 + 4) + 4)
              (by omega)
          have h7f := fields_write_u32_high (write_bytes (write_u32
              (update_data_tail_offset (write_bytes (write_u32
                (update_data_tail_offset p
                  (get_data_tail_offset p - (4 + v.length)))
                (get_data_tail_offset p - (4 + v.length)) v.length)
                (get_data_tail_offset p - (4 + v.length) + 4) v)
              (get_data_tail_offset p - (4 + v.length) - (4 + k.length + 1 + 4)))
              (get_data_tail_offset p - (4 + v.length) - (4 + k.length + 1 + 4))
              k.length)
              (get_data_tail_offset p - (4 + v.length) - (4 + k.length + 1 + 4) + 4)
              k)
              (get_value_offset_position
                (get_data_tail_offset p - (4 + v.length) - (4 + k.length + 1 + 4))
                k.length)
              (get_data_tail_offset p - (4 + v.length))
              (by unfold get_value_offset_position; omega)
          rw [h7f.1, h6f.1, h5f.1, hP4h, h7f.2.1, h6f.2.1, h5f.2.1, hP4t] at hha
          unfold get_free_space
          omega

theorem fields_update_header (p : LeafPage) (v : Nat) :
    get_data_head_offset (update_header p v) = get_data_head_offset p ∧
    get_data_tail_offset (update_header p v) = get_data_tail_offset p ∧
    get_capacity (update_header p v) = get_capacity p := by
  unfold update_header DataPager.HEADER get_data_head_offset get_data_tail_offset
    get_capacity DataPager.DATA_HEAD_OFFSET DataPager.DATA_TAIL_OFFSET DataPager.CAPACITY
  exact ⟨read_u32_write_u8_ne p 9 0 v (by omega),
    read_u32_write_u8_ne p 13 0 v (by omega),
    read_u32_write_u8_ne p 1 0 v (by omega)⟩

theorem fields_update_value_delete (p : LeafPage) (ko : Nat) (b : Bool)
    (h17 : 17 ≤ ko) :
    get_data_head_offset (update_value_delete p ko b) = get_data_head_offset p ∧
    get_data_tail_offset (update_value_delete p ko b) = get_data_tail_offset p ∧
    get_capacity (update_value_delete p ko b) = get_capacity p := by
  unfold update_value_delete get_value_deleted_position
  exact fields_write_u8_high p _ _ (by omega)

theorem entry_getD_mem (p : LeafPage) (i : Nat)
    (hi : i < (get_sorted_table p).length) :
    (get_sorted_table p).getD i 0 ∈ get_sorted_table p := by
  rw [List.getD_eq_getElem _ _ hi]
  exact List.getElem_mem hi

/-- `override_value` preserves the structural invariant when the matching
slot entry references an offset past the header fields. -/
theorem override_value_inv (p : LeafPage) (st : List Nat) (idx : Nat)
    (k v : List Nat) (hInv : PageInv p) (hko : 17 ≤ st.getD idx 0) :
    PageInv (resultPage p (override_value p st idx k v)) := by
  obtain ⟨h25, hht, htc⟩ := hInv
  have h25n : 25 ≤ get_data_head_offset p := h25
  simp only [override_value]
  split
  · -- identical value: at most the tombstone byte is cleared
    split
    · simp only [resultPage]
      obtain ⟨e1, e2, e3⟩ := fields_update_value_delete p (st.getD idx 0) false
        (by omega)
      exact ⟨by rw [e1]; exact h25, by rw [e1, e2]; exact hht, by rw [e2, e3]; exact htc⟩
    · simp only [resultPage]; exact ⟨h25, hht, htc⟩
  · split
    · simp only [resultPage]; exact ⟨h25, hht, htc⟩
    · -- allocate a fresh value record from the tail
      have hD : get_data_head_offset (if (get_value_by_key_offset p
            (st.getD idx 0)).1 = true then
            update_value_delete p (st.getD idx 0) false else p) =
          get_data_head_offset p ∧
          get_data_tail_offset (if (get_value_by_key_offset p
            (st.getD idx 0)).1 = true then
            update_value_delete p (st.getD idx 0) false else p) =
          get_data_tail_offset p ∧
          get_capacity (if (get_value_by_key_offset p (st.getD idx 0)).1 = true then
            update_value_delete p (st.getD idx 0) false else p) =
          get_capacity p := by
        split
        · exact fields_update_value_delete p (st.getD idx 0) false (by omega)
        · exact ⟨rfl, rfl, rfl⟩
      split
      · simp only [resultPage]; exact ⟨h25, hht, htc⟩
      · simp only [resultPage]; exact ⟨h25, hht, htc⟩
      · rename_i a q heq
        obtain ⟨hsz, hguard, ha, hq⟩ := allocate_space_tail_ok_inv _ _ a q heq
        rw [hD.1, hD.2.1] at hguard
        rw [hD.2.1] at hsz ha
        simp only [resultPage]
        have hqh : get_data_head_offset q = get_data_head_offset p := by
          rw [hq, head_update_tail, hD.1]
        have hqt : get_data_tail_offset q =
            get_data_tail_offset p - (v.length + 4) := by
          rw [hq, tail_update_tail, hD.2.1]
          exact Nat.mod_eq_of_lt (by
            have := read_u32_lt p 13
            unfold get_data_tail_offset DataPager.DATA_TAIL_OFFSET at *
            omega)
        have hqc : get_capacity q = get_capacity p := by
          rw [hq, cap_update_tail, hD.2.2]
        have hw1 := fields_write_u32_high q a v.length (by omega)
        have hw2 := fields_write_bytes_high (write_u32 q a v.length) v (a + 4)
          (by omega)
        have hw3 := fields_write_u32_high
          (write_bytes (write_u32 q a v.length) (a + 4) v)
          (get_value_offset_position (st.getD idx 0) k.length) a
          (by unfold get_value_offset_position; omega)
        refine ⟨?_, ?_, ?_⟩
        · rw [hw3.1, hw2.1, hw1.1, hqh]; exact h25
        · rw [hw3.1, hw2.1, hw1.1, hqh, hw3.2.1, hw2.2.1, hw1.2.1, hqt]; omega
        · rw [hw3.2.1, hw2.2.1, hw1.2.1, hqt, hw3.2.2, hw2.2.2, hw1.2.2, hqc]; omega

/-- `delete_value` preserves the structural invariant when slot entries
reference offsets past the header fields. -/
theorem delete_value_inv (p : LeafPage) (key : List Nat) (hInv : PageInv p)
    (hents : entries_in_data_area p) :
    PageInv ((delete_value p key).2) := by
  simp only [delete_value]
  split
  · exact hInv
  · rename_i hfound
    have hfi : (binary_search p key (get_sorted_table p)).1 = true := by
      simp only [Bool.not_eq_true', Bool.not_eq_false] at hfound
      exact hfound
    have hlt := binary_search_found_lt p key (get_sorted_table p) hfi
    have hko := hents _ (entry_getD_mem p _ hlt)
    unfold LeafPage.PREVIOUS_PAGE at hko
    obtain ⟨e1, e2, e3⟩ := fields_update_value_delete p
      ((get_sorted_table p).getD (binary_search p key (get_sorted_table p)).2 0)
      true (by omega)
    exact ⟨by rw [e1]; exact hInv.1, by rw [e1, e2]; exact hInv.2.1,
      by rw [e2, e3]; exact hInv.2.2⟩

theorem new_fields (length : Nat) :
    get_data_head_offset (LeafPage.new length) = 25 ∧
    get_data_tail_offset (LeafPage.new length) = length % 4294967296 ∧
    get_capacity (LeafPage.new length) = length % 4294967296 := by
  simp only [LeafPage.new, common_init]
  refine ⟨?_, ?_, ?_⟩
  · rw [(fields_update_header _ _).1, head_update_tail, head_update_head]
    decide
  · rw [(fields_update_header _ _).2.1, tail_update_tail]
  · rw [(fields_update_header _ _).2.2, cap_update_tail, cap_update_head]
    unfold update_capacity get_capacity DataPager.CAPACITY
    exact read_u32_write_u32_same _ 1 length

/-- C8 (amended): the invariant
`SORTED_TABLE ≤ data_head_offset ≤ data_tail_offset ≤ capacity` holds on a
page created by `new` for every u32 length of at least `SORTED_TABLE` (25)
bytes, and is preserved by `insert_or_update` and `delete` on every
invariant-satisfying page whose slot entries reference offsets past the
header fields (true of all pages reachable through the public interface);
under the invariant, `free_space = data_tail_offset - data_head_offset`
computes without underflow. -/
theorem C8_amended_structural_invariant :
    (∀ length : Nat, 25 ≤ length → length < 4294967296 →
      PageInv (LeafPage.new length)) ∧
    (∀ p k v, PageInv p → entries_in_data_area p →
      PageInv (resultPage p (insert_key_value p k v))) ∧
    (∀ p k, PageInv p → entries_in_data_area p →
      PageInv ((delete_value p k).2)) ∧
    (∀ p, PageInv p →
      get_data_head_offset p + get_free_space p = get_data_tail_offset p) := by
  refine ⟨fun length h25 h32 => ?_, fun p k v hInv hents => ?_,
    fun p k hInv hents => delete_value_inv p k hInv hents,
    fun p hInv => ?_⟩
  · obtain ⟨e1, e2, e3⟩ := new_fields length
    refine ⟨?_, ?_, ?_⟩
    · rw [e1]; simp only [LeafPage.SORTED_TABLE]; omega
    · rw [e1, e2, Nat.mod_eq_of_lt h32]; omega
    · rw [e2, e3]
  · have h25n : 25 ≤ get_data_head_offset p := hInv.1
    rcases hf : (binary_search p k (get_sorted_table p)).1 with _ | _
    · -- key absent: the fresh-insert path
      have hred : insert_key_value p k v =
          insert_value p (get_sorted_table p)
            (binary_search p k (get_sorted_table p)).2 k v := by
        simp only [insert_key_value, hf, Bool.false_eq_true, if_false]
      rw [hred]
      have hidx : (binary_search p k (get_sorted_table p)).2 ≤
          (get_sorted_table p).length := binary_search_le p k _
      have hst : 25 + 4 * (get_sorted_table p).length ≤ get_data_head_offset p := by
        rw [sorted_table_length]
        unfold get_sorted_table_offset LeafPage.SORTED_TABLE
        omega
      rcases hres : insert_value p (get_sorted_table p)
          (binary_search p k (get_sorted_table p)).2 k v with _ | ⟨b, q⟩
      · simp only [resultPage]
        exact hInv
      · cases b with
        | false =>
          have hq := insert_value_false p _ _ k v q hres
          simp only [resultPage]
          rw [hq]
          exact hInv
        | true =>
          have hfree := insert_value_true_free p _ _ k v q h25n hres
          obtain ⟨hok, hhd, htl, hcp, -, -⟩ :=
            (insert_value_main p (get_sorted_table p) _ k v hidx h25n hst
              (by omega)).2 hfree
          rw [hres] at hhd htl hcp
          simp only [resultPage] at hhd htl hcp ⊢
          have hfr : get_data_head_offset p + (17 + k.length + v.length) ≤
              get_data_tail_offset p := by
            unfold get_free_space at hfree
            omega
          refine ⟨?_, ?_, ?_⟩
          · rw [hhd]; simp only [LeafPage.SORTED_TABLE]; omega
          · rw [hhd, htl]; omega
          · rw [htl, hcp]
            have := hInv.2.2
            omega
    · -- key present: the override path
      have hlt := binary_search_found_lt p k (get_sorted_table p) hf
      have hko := hents _ (entry_getD_mem p _ hlt)
      unfold LeafPage.PREVIOUS_PAGE at hko
      have hred : insert_key_value p k v =
          override_value p (get_sorted_table p)
            (binary_search p k (get_sorted_table p)).2 k v := by
        simp only [insert_key_value, hf, if_true]
      rw [hred]
      exact override_value_inv p _ _ k v hInv hko
  · unfold get_free_space
    have := hInv.2.1
    omega

theorem C8_amended_witness :
    PageInv (LeafPage.new 512) ∧
    PageInv (resultPage (LeafPage.new 512)
      (insert_key_value (LeafPage.new 512) [7] [8])) ∧
    PageInv ((delete_value (LeafPage.new 512) [7]).2) ∧
    get_data_head_offset (LeafPage.new 512) + get_free_space (LeafPage.new 512) =
      get_data_tail_offset (LeafPage.new 512) :=
  ⟨C8_amended_structural_invariant.1 512 (by decide) (by decide),
   C8_amended_structural_invariant.2.1 (LeafPage.new 512) [7] [8] (by decide)
     (by decide),
   C8_amended_structural_invariant.2.2.1 (LeafPage.new 512) [7] (by decide)
     (by decide),
   C8_amended_structural_invariant.2.2.2 (LeafPage.new 512) (by decide)⟩

/-- C10: a successful `insert_value` allocates exactly the key record
(`4 + key.len() + 1 + 4` bytes) on top of the value record — the tail
strictly decreases by their sum — and never writes the 1-byte tombstone
flag at `key_offset + 4 + key.len()` inside the fresh key record: that byte
keeps whatever value the buffer held before, so the record reads back as
not-deleted exactly when the freshly allocated byte was still in its
initial zero state. -/
theorem C10_tombstone_byte_never_written (p : LeafPage) (st : List Nat)
    (idx : Nat) (k v : List Nat)
    (hidx : idx ≤ st.length)
    (hh : 25 ≤ get_data_head_offset p)
    (hst : 25 + 4 * st.length ≤ get_data_head_offset p)
    (hfree : 17 + k.length + v.length ≤ get_free_space p)
    (hk32 : k.length < 4294967296) :
    resultOk (insert_value p st idx k v) = true ∧
    get_data_tail_offset (resultPage p (insert_value p st idx k v)) +
        get_key_required_space k + get_value_required_space v =
      get_data_tail_offset p ∧
    get_data_tail_offset (resultPage p (insert_value p st idx k v)) <
      get_data_tail_offset p ∧
    read_u8 (resultPage p (insert_value p st idx k v))
        (get_data_tail_offset (resultPage p (insert_value p st idx k v)) + 4 +
          k.length) =
      read_u8 p
        (get_data_tail_offset (resultPage p (insert_value p st idx k v)) + 4 +
          k.length) ∧
    (get_value_by_key_offset (resultPage p (insert_value p st idx k v))
        (get_data_tail_offset (resultPage p (insert_value p st idx k v)))).1 =
      (read_u8 p
        (get_data_tail_offset (resultPage p (insert_value p st idx k v)) + 4 +
          k.length) == 1) := by
  obtain ⟨hok, hhd, htl, hcp, hbyte, hks⟩ :=
    (insert_value_main p st idx k v hidx hh hst (by omega)).2 hfree
  have htge : get_data_head_offset p + (17 + k.length + v.length) ≤
      get_data_tail_offset p := by
    unfold get_free_space at hfree
    omega
  refine ⟨hok, ?_, ?_, ?_, ?_⟩
  · unfold get_key_required_space get_value_required_space
    rw [htl]
    omega
  · rw [htl]; omega
  · rw [htl]; exact hbyte
  · have hksn : read_u32 (resultPage p (insert_value p st idx k v))
        (get_data_tail_offset p - (13 + k.length + v.length)) = k.length := by
      rw [hks]; exact Nat.mod_eq_of_lt hk32
    rw [htl]
    simp only [get_value_by_key_offset, hksn, get_value_deleted_position]
    rw [hbyte]

theorem C10_witness :
    resultOk (insert_value (LeafPage.new 64) [] 0 [3] [5]) = true :=
  (C10_tombstone_byte_never_written (LeafPage.new 64) [] 0 [3] [5] (by decide)
    (by decide) (by decide) (by decide) (by decide)).1

/-- C6 (amended): on a structurally well-formed page (`PageWF`: directory
entries reference pairwise-disjoint key records at or above
`data_head_offset`, each referenced value record disjoint from every key
record), if key `k` is present with stored value bytes `v`, then
`insert_or_update(k, v)` returns `true`, performs no allocation
(`data_head_offset` and `data_tail_offset` unchanged), clears the tombstone
if it was set, and leaves `get(k) = v`. -/
theorem C6_amended_idempotent_override (p : LeafPage) (k v : List Nat) (i : Nat)
    (hwf : PageWF p)
    (hfound : binary_search p k (get_sorted_table p) = (true, i))
    (hstored : (get_value_by_key_offset p ((get_sorted_table p).getD i 0)).2 = v) :
    resultOk (insert_key_value p k v) = true ∧
    get_data_head_offset (resultPage p (insert_key_value p k v)) =
      get_data_head_offset p ∧
    get_data_tail_offset (resultPage p (insert_key_value p k v)) =
      get_data_tail_offset p ∧
    (get_value_by_key_offset (resultPage p (insert_key_value p k v))
        ((get_sorted_table p).getD i 0)).1 = false ∧
    get_value (resultPage p (insert_key_value p k v)) k = some v := by
  obtain ⟨h25, hents, hpairw, hvals⟩ := hwf
  have h25n : 25 ≤ get_data_head_offset p := h25
  have hfound1 : (binary_search p k (get_sorted_table p)).1 = true := by
    rw [hfound]
  have hi : i < (get_sorted_table p).length := by
    have := binary_search_found_lt p k (get_sorted_table p) hfound1
    rwa [hfound] at this
  have hmem := entry_getD_mem p i hi
  have hko : get_data_head_offset p ≤ (get_sorted_table p).getD i 0 := hents _ hmem
  have hko17 : 17 ≤ (get_sorted_table p).getD i 0 := by omega
  have hred : insert_key_value p k v =
      override_value p (get_sorted_table p) i k v := by
    simp only [insert_key_value, hfound, if_true]
  rw [hred]
  by_cases hdel : (get_value_by_key_offset p ((get_sorted_table p).getD i 0)).1 = true
  · -- the stored record is tombstoned: the one-byte clear
    have hor : override_value p (get_sorted_table p) i k v =
        PRes.ok (true, update_value_delete p ((get_sorted_table p).getD i 0) false) := by
      simp only [override_value]
      rw [if_pos hstored, if_pos hdel]
    rw [hor]
    simp only [resultOk, resultPage]
    obtain ⟨e1, e2, e3⟩ := fields_update_value_delete p
      ((get_sorted_table p).getD i 0) false hko17
    have hupd : update_value_delete p ((get_sorted_table p).getD i 0) false =
        write_u8 p ((get_sorted_table p).getD i 0 + 4 +
          read_u32 p ((get_sorted_table p).getD i 0)) 0 := by
      simp [update_value_delete, get_value_deleted_position]
    rw [hupd] at e1 e2 ⊢
    set ko := (get_sorted_table p).getD i 0 with hko_def
    set ks := read_u32 p ko with hks_def
    set dp := ko + 4 + ks with hdp_def
    have hks_same : read_u32 (write_u8 p dp 0) ko = ks := by
      rw [read_u32_write_u8_ne p ko dp 0 (by omega)]
    have htab : get_sorted_table (write_u8 p dp 0) = get_sorted_table p :=
      sorted_table_write_u8_high p dp 0 h25n (by omega)
    have hframe : ∀ j, j < (get_sorted_table p).length →
        read_u32 (write_u8 p dp 0) ((get_sorted_table p).getD j 0) =
          read_u32 p ((get_sorted_table p).getD j 0) ∧
        read_bytes (write_u8 p dp 0) ((get_sorted_table p).getD j 0 + 4)
            (read_u32 p ((get_sorted_table p).getD j 0)) =
          read_bytes p ((get_sorted_table p).getD j 0 + 4)
            (read_u32 p ((get_sorted_table p).getD j 0)) := by
      intro j hj
      by_cases hji : (get_sorted_table p).getD j 0 = ko
      · rw [hji]
        exact ⟨hks_same, read_bytes_write_u8_out p (ko + 4) ks dp 0 (by omega)⟩
      · have hdisj : (get_sorted_table p).getD j 0 +
              record_span p ((get_sorted_table p).getD j 0) ≤ ko ∨
            ko + record_span p ko ≤ (get_sorted_table p).getD j 0 := by
          have hR := List.pairwise_iff_getElem.mp hpairw
          rcases Nat.lt_or_ge j i with hlt | hge
          · have := hR j i hj hi hlt
            rw [← List.getD_eq_getElem (get_sorted_table p) 0 hj,
              ← List.getD_eq_getElem (get_sorted_table p) 0 hi] at this
            rw [← hko_def] at this
            tauto
          · have hlt2 : i < j := by
              rcases Nat.lt_or_ge i j with h2 | h2
              · exact h2
              · exact absurd (by omega : i = j) (fun he => hji (by rw [← he]))
            have := hR i j hi hj hlt2
            rw [← List.getD_eq_getElem (get_sorted_table p) 0 hj,
              ← List.getD_eq_getElem (get_sorted_table p) 0 hi] at this
            rw [← hko_def] at this
            tauto
        unfold record_span at hdisj
        rw [← hks_def] at hdisj
        rcases hdisj with hd | hd
        · exact ⟨read_u32_write_u8_ne p _ dp 0 (by omega),
            read_bytes_write_u8_out p _ _ dp 0 (by omega)⟩
        · exact ⟨read_u32_write_u8_ne p _ dp 0 (by omega),
            read_bytes_write_u8_out p _ _ dp 0 (by omega)⟩
    have hsearch : binary_search (write_u8 p dp 0) k (get_sorted_table p) =
        binary_search p k (get_sorted_table p) :=
      binary_search_congr _ p k _ hframe
    have hdisjv := hvals ko hmem ko hmem
    unfold record_span at hdisjv
    rw [← hks_def] at hdisjv
    set vo := read_u32 p (get_value_offset_position ko ks) with hvo_def
    set vs := read_u32 p vo with hvs_def
    have hvo_same : read_u32 (write_u8 p dp 0)
        (get_value_offset_position ko ks) = vo := by
      rw [hvo_def]
      apply read_u32_write_u8_ne
      unfold get_value_offset_position
      omega
    have hvs_same : read_u32 (write_u8 p dp 0) vo = vs := by
      rw [hvs_def]
      apply read_u32_write_u8_ne
      rcases hdisjv with hd | hd <;> omega
    have hvb_same : read_bytes (write_u8 p dp 0) (vo + 4) vs =
        read_bytes p (vo + 4) vs := by
      apply read_bytes_write_u8_out
      rcases hdisjv with hd | hd <;> omega
    have hflag : read_u8 (write_u8 p dp 0) dp = 0 := by
      rw [read_u8_write_u8_same]
    have hgv : get_value_by_key_offset (write_u8 p dp 0) ko = (false, v) := by
      simp only [get_value_by_key_offset, hks_same, get_value_deleted_position,
        get_value_offset_position]
      have h1 : read_u8 (write_u8 p dp 0) (ko + 4 + ks) = 0 := by
        rw [← hdp_def]
        exact hflag
      have h2 : read_u32 (write_u8 p dp 0) (ko + 4 + ks + 1) = vo := by
        rw [show ko + 4 + ks + 1 = get_value_offset_position ko ks from rfl]
        exact hvo_same
      rw [h1, h2, hvs_same, hvb_same]
      have hold : read_bytes p (vo + 4) vs = v := by
        rw [hvs_def, hvo_def, hks_def]
        exact hstored
      rw [hold]
      rfl
    refine ⟨trivial, e1, e2, ?_, ?_⟩
    · simp only [get_value_by_key_offset, hks_same, get_value_deleted_position]
      have h1 : read_u8 (write_u8 p dp 0) (ko + 4 + ks) = 0 := by
        rw [← hdp_def]
        exact hflag
      rw [h1]
      decide
    · rw [hko_def] at hgv
      simp only [get_value, htab, hsearch, hfound, Bool.not_true,
        Bool.false_eq_true, if_false]
      rw [hgv]
  · -- the record is live: nothing is written at all
    have hdelf : (get_value_by_key_offset p ((get_sorted_table p).getD i 0)).1 =
        false := by
      rw [← Bool.not_eq_true]
      exact hdel
    have hor : override_value p (get_sorted_table p) i k v = PRes.ok (true, p) := by
      simp only [override_value]
      rw [if_pos hstored, if_neg (by rw [hdelf]; exact Bool.false_ne_true)]
    rw [hor]
    simp only [resultOk, resultPage]
    have hio : get_value_by_key_offset p ((get_sorted_table p).getD i 0) =
        (false, v) := by
      rw [← hdelf, ← hstored]
    refine ⟨trivial, trivial, trivial, hdelf, ?_⟩
    simp only [get_value, hfound, Bool.not_true, Bool.false_eq_true, if_false]
    rw [hio]

/-- The page obtained by inserting `([3], [5])` into a fresh 64-byte page:
a concrete well-formed page on which the key is present. -/
def c6w_page : LeafPage :=
  resultPage (LeafPage.new 64) (insert_key_value (LeafPage.new 64) [3] [5])

theorem C6_amended_witness :
    PageWF c6w_page ∧
    binary_search c6w_page [3] (get_sorted_table c6w_page) = (true, 0) ∧
    resultOk (insert_key_value c6w_page [3] [5]) = true ∧
    get_value (resultPage c6w_page (insert_key_value c6w_page [3] [5])) [3] =
      some [5] :=
  ⟨by decide, by decide,
   (C6_amended_idempotent_override c6w_page [3] [5] 0 (by decide) (by decide)
     (by decide)).1,
   (C6_amended_idempotent_override c6w_page [3] [5] 0 (by decide) (by decide)
     (by decide)).2.2.2.2⟩
